import Mathlib

/-!
Verification of the `diamonds` terminal tool (`main.go`): a shallow embedding of
its data model, per-view key handlers, persistence layer and renderers, together
with theorems settling the specification's claims about them.

Go strings are byte sequences, so application strings are modelled as `List Nat`
of byte values; `len` on a Go string is the byte length, `s[:len(s)-1]` drops the
last byte, and `string(runes)` is the UTF-8 encoding of the rune sequence.
-/

set_option maxHeartbeats 1000000

namespace Diamonds

/-- A Go string: a sequence of bytes (each value < 256). -/
abbrev GoStr := List Nat

/-- UTF-8 encoding of one code point, as Go's `utf8.EncodeRune` produces for
valid scalar values (terminal input runes are valid scalars). -/
def utf8EncodeCp (c : Nat) : List Nat :=
  if c < 0x80 then [c]
  else if c < 0x800 then [0xC0 + c / 64, 0x80 + c % 64]
  else if c < 0x10000 then [0xE0 + c / 4096, 0x80 + c / 64 % 64, 0x80 + c % 64]
  else [0xF0 + c / 0x40000, 0x80 + c / 4096 % 64, 0x80 + c / 64 % 64, 0x80 + c % 64]

/-- Bytes of a Lean string literal, used to transcribe Go string literals. -/
def gostr (s : String) : GoStr := (s.data.map fun c => utf8EncodeCp c.toNat).flatten

/-- Go's `string(msg.Runes)`: UTF-8 bytes of a rune sequence. -/
def runesToStr (rs : List Nat) : GoStr := (rs.map utf8EncodeCp).flatten

-- --- DATA MODEL (main.go: namedURL, Project, projectItem, ViewState, model) ---

structure NamedURL where
  Name : GoStr
  URL : GoStr
deriving DecidableEq, Repr

structure Project where
  Name : GoStr
  Colors : List GoStr
  Urls : List NamedURL
deriving DecidableEq, Repr

/-- `projectItem`: what `updateProjectListItems` feeds the bubbles list widget. -/
structure ProjectItem where
  name : GoStr
  colorCount : Nat
  urlCount : Nat
deriving DecidableEq, Repr

def Project.toItem (p : Project) : ProjectItem :=
  ⟨p.Name, p.Colors.length, p.Urls.length⟩

inductive ViewState where
  | ProjectListView
  | ColorListView
  | AddProjectView
  | AddColorView
  | UrlListView
  | AddUrlView
  | ProjectMenuView
deriving DecidableEq, Repr

/-- Model of the external `bubbles/list` widget (`m.projectList`): the item
sequence and the widget's own cursor (`Index`). `SelectedItem` returns the item
at the cursor, or nothing when out of range; cursor movement clamps at both
ends (no wraparound). -/
structure PList where
  items : List ProjectItem
  index : Nat
deriving DecidableEq, Repr

def PList.selectedItem (pl : PList) : Option ProjectItem := pl.items.get? pl.index

structure Model where
  projectList : PList
  projects : List Project
  currentView : ViewState
  cursor : Int
  selectedProject : Nat
  inputBuffer : GoStr
  urlNameBuffer : GoStr
  focusedField : Nat
  message : GoStr
deriving DecidableEq, Repr

-- --- KEY MESSAGES ---

/-- The `tea.KeyMsg` kinds the handlers distinguish.  `runes` is `tea.KeyRunes`
(ordinary character input carrying `msg.Runes`); the named keys are the control
keys whose `msg.String()` the handlers compare against; `other` stands for any
further special key (its string matches none of the switch cases). -/
inductive KeyType where
  | runes | space | enter | esc | backspace | tab | up | down | ctrlC | other
deriving DecidableEq, Repr

structure KeyMsg where
  type : KeyType
  runes : List Nat
deriving DecidableEq, Repr

/-- `msg.String()` of a key message. -/
def KeyMsg.str (k : KeyMsg) : GoStr :=
  match k.type with
  | .runes => runesToStr k.runes
  | .space => gostr " "
  | .enter => gostr "enter"
  | .esc => gostr "esc"
  | .backspace => gostr "backspace"
  | .tab => gostr "tab"
  | .up => gostr "up"
  | .down => gostr "down"
  | .ctrlC => gostr "ctrl+c"
  | .other => gostr "unknown"

def keyRunes (rs : List Nat) : KeyMsg := ⟨.runes, rs⟩
def keyEnter : KeyMsg := ⟨.enter, []⟩
def keyEsc : KeyMsg := ⟨.esc, []⟩
def keyBackspace : KeyMsg := ⟨.backspace, []⟩
def keyTab : KeyMsg := ⟨.tab, []⟩
def keyUp : KeyMsg := ⟨.up, []⟩
def keyDown : KeyMsg := ⟨.down, []⟩
def keyCtrlC : KeyMsg := ⟨.ctrlC, []⟩
def keySpace : KeyMsg := ⟨.space, [32]⟩

/-- Observable effects a handler produces besides the state update: `quit` is
`tea.Quit`, `clip` a clipboard write, `save` a successful write of the project
list to the data file. -/
inductive Effect where
  | quit
  | clip (s : GoStr)
  | save (ps : List Project)
deriving DecidableEq, Repr

/-- Environment for `saveProjects`: which of its three fallible steps (config
path resolution, `json.MarshalIndent`, `os.WriteFile`) fails, with the error's
formatted text, or none. -/
inductive SaveOutcome where
  | ok
  | pathError (e : GoStr)
  | marshalError (e : GoStr)
  | writeError (e : GoStr)
deriving DecidableEq, Repr

-- --- PERSISTENCE CALL (saveProjects) ---

/-- The error message `saveProjects` formats for each failing step. -/
def saveErrMsg : SaveOutcome → GoStr
  | .ok => []
  | .pathError e => gostr "Error getting data path: " ++ e
  | .marshalError e => gostr "Error saving data: " ++ e
  | .writeError e => gostr "Error writing data: " ++ e

/-- `(m *model) saveProjects()`: on failure of any step it only records the
formatted error in `m.message` and returns — the project list is untouched; on
success the whole project list is written to the data file. -/
def saveProjects (env : SaveOutcome) (m : Model) : Model × List Effect :=
  match env with
  | .ok => (m, [Effect.save m.projects])
  | e => ({ m with message := saveErrMsg e }, [])

/-- `(m *model) updateProjectListItems()`: rebuild the widget's items from the
project list (the widget cursor is kept). -/
def updateProjectListItems (m : Model) : Model :=
  { m with projectList := ⟨m.projects.map Project.toItem, m.projectList.index⟩ }

-- --- KEY HANDLERS ---

/-- Cursor movement of the external bubbles list widget on keys it handles
(`up`/`k`, `down`/`j`): moves by one, clamped to the item range. -/
def plUpdate (pl : PList) (msg : KeyMsg) : PList :=
  let s := msg.str
  if s = gostr "up" ∨ s = gostr "k" then
    if pl.index > 0 then { pl with index := pl.index - 1 } else pl
  else if s = gostr "down" ∨ s = gostr "j" then
    if pl.index + 1 < pl.items.length then { pl with index := pl.index + 1 } else pl
  else pl

/-- `updateProjectList`. -/
def updateProjectList (m : Model) (msg : KeyMsg) : Model × List Effect :=
  let s := msg.str
  if s = gostr "ctrl+c" ∨ s = gostr "q" then (m, [Effect.quit])
  else if s = gostr "enter" then
    match m.projectList.selectedItem with
    | some it =>
      -- for i, p := range m.projects { if p.Name == selectedItem.name { ... break } }
      match m.projects.findIdx? (fun p => p.Name = it.name) with
      | some i =>
        ({ m with selectedProject := i, currentView := .ProjectMenuView, cursor := 0 }, [])
      | none => (m, [])
    | none => (m, [])
  else if s = gostr "n" then
    ({ m with currentView := .AddProjectView, inputBuffer := [] }, [])
  else ({ m with projectList := plUpdate m.projectList msg }, [])

/-- `updateProjectMenu`. -/
def updateProjectMenu (m : Model) (msg : KeyMsg) : Model × List Effect :=
  let s := msg.str
  if s = gostr "ctrl+c" ∨ s = gostr "q" then (m, [Effect.quit])
  else if s = gostr "esc" then ({ m with currentView := .ProjectListView }, [])
  else if s = gostr "up" ∨ s = gostr "k" then
    (if m.cursor > 0 then { m with cursor := m.cursor - 1 } else m, [])
  else if s = gostr "down" ∨ s = gostr "j" then
    (if m.cursor < 1 then { m with cursor := m.cursor + 1 } else m, [])
  else if s = gostr "enter" then
    (if m.cursor = 0 then { m with currentView := .ColorListView, cursor := 0 }
     else { m with currentView := .UrlListView, cursor := 0 }, [])
  else (m, [])

/-- The project the model's `selectedProject` indexes (total stand-in for Go's
panicking index; every theorem that depends on it carries an in-range
hypothesis). -/
def Model.selProject (m : Model) : Project := m.projects.getD m.selectedProject ⟨[], [], []⟩

def Model.selColors (m : Model) : List GoStr := m.selProject.Colors

def Model.selUrls (m : Model) : List NamedURL := m.selProject.Urls

/-- `updateColorList`. -/
def updateColorList (m : Model) (msg : KeyMsg) : Model × List Effect :=
  let s := msg.str
  if s = gostr "ctrl+c" ∨ s = gostr "q" then (m, [Effect.quit])
  else if s = gostr "esc" then ({ m with currentView := .ProjectMenuView }, [])
  else if s = gostr "up" ∨ s = gostr "k" then
    (if m.cursor > 0 then { m with cursor := m.cursor - 1 } else m, [])
  else if s = gostr "down" ∨ s = gostr "j" then
    (if m.cursor < (m.selColors.length : Int) - 1 then { m with cursor := m.cursor + 1 } else m, [])
  else if s = gostr "enter" then
    if m.selColors.length > 0 then
      let color := m.selColors.getD m.cursor.toNat []
      ({ m with message := gostr " Copied " ++ color ++ gostr " to clipboard! " },
       [Effect.clip color])
    else (m, [])
  else if s = gostr "n" then
    ({ m with currentView := .AddColorView, inputBuffer := [] }, [])
  else (m, [])

/-- `updateUrlList`. -/
def updateUrlList (m : Model) (msg : KeyMsg) : Model × List Effect :=
  let s := msg.str
  if s = gostr "ctrl+c" ∨ s = gostr "q" then (m, [Effect.quit])
  else if s = gostr "esc" then ({ m with currentView := .ProjectMenuView }, [])
  else if s = gostr "up" ∨ s = gostr "k" then
    (if m.cursor > 0 then { m with cursor := m.cursor - 1 } else m, [])
  else if s = gostr "down" ∨ s = gostr "j" then
    (if m.cursor < (m.selUrls.length : Int) - 1 then { m with cursor := m.cursor + 1 } else m, [])
  else if s = gostr "enter" then
    if m.selUrls.length > 0 then
      let url := (m.selUrls.getD m.cursor.toNat ⟨[], []⟩).URL
      ({ m with message := gostr " Copied " ++ url ++ gostr " to clipboard! " },
       [Effect.clip url])
    else (m, [])
  else if s = gostr "n" then
    ({ m with currentView := .AddUrlView, inputBuffer := [], urlNameBuffer := [],
              focusedField := 0 }, [])
  else (m, [])

/-- `updateAddProject`. -/
def updateAddProject (env : SaveOutcome) (m : Model) (msg : KeyMsg) : Model × List Effect :=
  let s := msg.str
  if s = gostr "ctrl+c" then (m, [Effect.quit])
  else if s = gostr "esc" then
    ({ m with currentView := .ProjectListView, inputBuffer := [] }, [])
  else if s = gostr "enter" then
    if m.inputBuffer ≠ [] then
      let m1 := { m with projects := m.projects ++ [⟨m.inputBuffer, [], []⟩] }
      let m2 := saveProjects env (updateProjectListItems m1)
      ({ m2.1 with currentView := .ProjectListView, inputBuffer := [] }, m2.2)
    else (m, [])
  else if s = gostr "backspace" then
    (if m.inputBuffer.length > 0 then { m with inputBuffer := m.inputBuffer.dropLast } else m, [])
  else if s = gostr " " then ({ m with inputBuffer := m.inputBuffer ++ [32] }, [])
  else
    (if msg.type = .runes then { m with inputBuffer := m.inputBuffer ++ runesToStr msg.runes }
     else m, [])

/-- `updateAddColor`. -/
def updateAddColor (env : SaveOutcome) (m : Model) (msg : KeyMsg) : Model × List Effect :=
  let s := msg.str
  if s = gostr "ctrl+c" then (m, [Effect.quit])
  else if s = gostr "esc" then
    ({ m with currentView := .ColorListView, inputBuffer := [] }, [])
  else if s = gostr "enter" then
    if m.inputBuffer ≠ [] ∧ [35].isPrefixOf m.inputBuffer ∧
        (m.inputBuffer.length = 7 ∨ m.inputBuffer.length = 4) then
      let p' := { m.selProject with Colors := m.selProject.Colors ++ [m.inputBuffer] }
      let m1 := { m with projects := m.projects.set m.selectedProject p' }
      let m2 := saveProjects env (updateProjectListItems m1)
      ({ m2.1 with currentView := .ColorListView,
                   cursor := (p'.Colors.length : Int) - 1, inputBuffer := [] }, m2.2)
    else (m, [])
  else if s = gostr "backspace" then
    (if m.inputBuffer.length > 0 then { m with inputBuffer := m.inputBuffer.dropLast } else m, [])
  else
    (if msg.type = .runes ∧ m.inputBuffer.length < 7 then
       { m with inputBuffer := m.inputBuffer ++ runesToStr msg.runes }
     else m, [])

/-- `updateAddUrl`. -/
def updateAddUrl (env : SaveOutcome) (m : Model) (msg : KeyMsg) : Model × List Effect :=
  let s := msg.str
  if s = gostr "ctrl+c" then (m, [Effect.quit])
  else if s = gostr "esc" then
    ({ m with currentView := .UrlListView, urlNameBuffer := [], inputBuffer := [],
              focusedField := 0 }, [])
  else if s = gostr "enter" then
    if m.focusedField = 0 then ({ m with focusedField := 1 }, [])
    else
      if m.urlNameBuffer ≠ [] ∧ m.inputBuffer ≠ [] then
        let p' := { m.selProject with
                    Urls := m.selProject.Urls ++ [⟨m.urlNameBuffer, m.inputBuffer⟩] }
        let m1 := { m with projects := m.projects.set m.selectedProject p' }
        let m2 := saveProjects env (updateProjectListItems m1)
        ({ m2.1 with currentView := .UrlListView,
                     cursor := (p'.Urls.length : Int) - 1,
                     urlNameBuffer := [], inputBuffer := [], focusedField := 0 }, m2.2)
      else (m, [])
  else if s = gostr "backspace" then
    (if m.focusedField = 0 then
       if m.urlNameBuffer.length > 0 then { m with urlNameBuffer := m.urlNameBuffer.dropLast }
       else m
     else
       if m.inputBuffer.length > 0 then { m with inputBuffer := m.inputBuffer.dropLast }
       else m, [])
  else if s = gostr "tab" then ({ m with focusedField := (m.focusedField + 1) % 2 }, [])
  else if s = gostr " " then
    (if m.focusedField = 0 then { m with urlNameBuffer := m.urlNameBuffer ++ [32] }
     else { m with inputBuffer := m.inputBuffer ++ [32] }, [])
  else
    (if msg.type = .runes then
       if m.focusedField = 0 then { m with urlNameBuffer := m.urlNameBuffer ++ runesToStr msg.runes }
       else { m with inputBuffer := m.inputBuffer ++ runesToStr msg.runes }
     else m, [])

/-- `Update` restricted to key messages: dispatch on the current view. -/
def stepKey (env : SaveOutcome) (m : Model) (msg : KeyMsg) : Model × List Effect :=
  match m.currentView with
  | .ProjectListView => updateProjectList m msg
  | .ProjectMenuView => updateProjectMenu m msg
  | .ColorListView => updateColorList m msg
  | .UrlListView => updateUrlList m msg
  | .AddProjectView => updateAddProject env m msg
  | .AddColorView => updateAddColor env m msg
  | .AddUrlView => updateAddUrl env m msg

/-- Run a sequence of key events, keeping only the state. -/
def steps (env : SaveOutcome) (m : Model) (ks : List KeyMsg) : Model :=
  ks.foldl (fun acc k => (stepKey env acc k).1) m

/-- `initialModel` with the projects loaded at startup: the list widget holds
one item per project with cursor 0, the view is the project list, and the
remaining fields are Go zero values. -/
def initialModel (ps : List Project) : Model :=
  { projectList := ⟨ps.map Project.toItem, 0⟩
    projects := ps
    currentView := .ProjectListView
    cursor := 0
    selectedProject := 0
    inputBuffer := []
    urlNameBuffer := []
    focusedField := 0
    message := [] }

-- --- JSON PERSISTENCE (saveProjects / loadProjects round trip) ---

/-- UTF-8 bytes of the replacement character U+FFFD, which Go's JSON encoder
substitutes for each invalid byte of a string. -/
def repl : List Nat := [0xEF, 0xBF, 0xBD]

/-- Whether `b1` is acceptable as the byte following leading byte `b0`, per
Go's `unicode/utf8` accept ranges (shortest-form and surrogate exclusion). -/
def accept1 (b0 b1 : Nat) : Bool :=
  if b0 = 0xE0 then 0xA0 ≤ b1 && b1 ≤ 0xBF
  else if b0 = 0xED then 0x80 ≤ b1 && b1 ≤ 0x9F
  else if b0 = 0xF0 then 0x90 ≤ b1 && b1 ≤ 0xBF
  else if b0 = 0xF4 then 0x80 ≤ b1 && b1 ≤ 0x8F
  else 0x80 ≤ b1 && b1 ≤ 0xBF

/-- A UTF-8 continuation byte. -/
def isCont (b : Nat) : Bool := 0x80 ≤ b && b ≤ 0xBF

/-- One scanning pass of Go's UTF-8 string coercion, with fuel bounding the
number of scan positions (one position consumes at least one byte, so fuel
`l.length` always suffices; the fuel only serves structural termination). -/
def goSanitizeF : Nat → List Nat → List Nat
  | 0, _ => []
  | _ + 1, [] => []
  | fuel + 1, b0 :: bs =>
    if b0 < 0x80 then b0 :: goSanitizeF fuel bs
    else if 0xC2 ≤ b0 && b0 ≤ 0xDF then
      match bs with
      | b1 :: rest =>
        if isCont b1 then b0 :: b1 :: goSanitizeF fuel rest
        else repl ++ goSanitizeF fuel bs
      | [] => repl
    else if 0xE0 ≤ b0 && b0 ≤ 0xEF then
      match bs with
      | b1 :: b2 :: rest =>
        if accept1 b0 b1 && isCont b2 then b0 :: b1 :: b2 :: goSanitizeF fuel rest
        else repl ++ goSanitizeF fuel bs
      | _ => repl ++ goSanitizeF fuel bs
    else if 0xF0 ≤ b0 && b0 ≤ 0xF4 then
      match bs with
      | b1 :: b2 :: b3 :: rest =>
        if accept1 b0 b1 && isCont b2 && isCont b3 then
          b0 :: b1 :: b2 :: b3 :: goSanitizeF fuel rest
        else repl ++ goSanitizeF fuel bs
      | _ => repl ++ goSanitizeF fuel bs
    else repl ++ goSanitizeF fuel bs

/-- The coercion Go's JSON encoder applies to a string: scan it as UTF-8 with
`utf8.DecodeRuneInString` semantics, keeping valid sequences and replacing each
invalid byte with U+FFFD (an invalid sequence consumes one byte at a time). -/
def goSanitize (l : List Nat) : List Nat := goSanitizeF l.length l

/-- Whether a byte sequence is valid UTF-8 under the same acceptance rules. -/
def utf8Valid : List Nat → Bool
  | [] => true
  | b0 :: bs =>
    if b0 < 0x80 then utf8Valid bs
    else if 0xC2 ≤ b0 && b0 ≤ 0xDF then
      match bs with
      | b1 :: rest => isCont b1 && utf8Valid rest
      | [] => false
    else if 0xE0 ≤ b0 && b0 ≤ 0xEF then
      match bs with
      | b1 :: b2 :: rest => accept1 b0 b1 && isCont b2 && utf8Valid rest
      | _ => false
    else if 0xF0 ≤ b0 && b0 ≤ 0xF4 then
      match bs with
      | b1 :: b2 :: b3 :: rest => accept1 b0 b1 && isCont b2 && isCont b3 && utf8Valid rest
      | _ => false
    else false

/-- JSON values as they appear in the data file (only strings, arrays and
objects occur for this data type; object fields are ordered). -/
inductive Json where
  | str (s : GoStr)
  | arr (elems : List Json)
  | obj (fields : List (GoStr × Json))

/-- `json.Marshal` of a `namedURL` (struct fields in declaration order, keys
from the json tags; string values are coerced to valid UTF-8). -/
def marshalNamedURL (u : NamedURL) : Json :=
  .obj [(gostr "name", .str (goSanitize u.Name)), (gostr "url", .str (goSanitize u.URL))]

/-- `json.Marshal` of a `Project`. -/
def marshalProject (p : Project) : Json :=
  .obj [(gostr "name", .str (goSanitize p.Name)),
        (gostr "colors", .arr (p.Colors.map (fun c => .str (goSanitize c)))),
        (gostr "urls", .arr (p.Urls.map marshalNamedURL))]

/-- `json.MarshalIndent(m.projects, ...)`: the JSON value `saveProjects` writes
to the data file (indentation does not change the value). -/
def marshalProjects (ps : List Project) : Json := .arr (ps.map marshalProject)

/-- Field lookup in a JSON object, as `json.Unmarshal` matches struct fields by
key. -/
def jlookup (fs : List (GoStr × Json)) (k : GoStr) : Option Json :=
  (fs.find? (fun f => f.1 = k)).map (·.2)

def unmarshalString : Json → Except GoStr GoStr
  | .str s => .ok s
  | _ => .error (gostr "cannot unmarshal into string")

/-- Unmarshal a string-typed struct field: a missing field keeps the Go zero
value (the empty string). -/
def getStrField (fs : List (GoStr × Json)) (k : GoStr) : Except GoStr GoStr :=
  match jlookup fs k with
  | none => .ok []
  | some j => unmarshalString j

/-- Unmarshal the elements of a JSON array one by one, stopping at the first
error, as `json.Unmarshal` does for a slice. -/
def mapME (f : α → Except GoStr β) : List α → Except GoStr (List β)
  | [] => .ok []
  | a :: as =>
    match f a with
    | .error e => .error e
    | .ok b =>
      match mapME f as with
      | .error e => .error e
      | .ok bs => .ok (b :: bs)

/-- `json.Unmarshal` into a `namedURL`: fields are matched by key. -/
def unmarshalNamedURL : Json → Except GoStr NamedURL
  | .obj fs =>
    match getStrField fs (gostr "name") with
    | .error e => .error e
    | .ok n =>
      match getStrField fs (gostr "url") with
      | .error e => .error e
      | .ok u => .ok ⟨n, u⟩
  | _ => .error (gostr "cannot unmarshal into namedURL")

/-- `json.Unmarshal` into a `Project`; missing fields keep Go zero values. -/
def unmarshalProject : Json → Except GoStr Project
  | .obj fs =>
    match getStrField fs (gostr "name") with
    | .error e => .error e
    | .ok n =>
      match
        (match jlookup fs (gostr "colors") with
         | none => .ok []
         | some (.arr es) => mapME unmarshalString es
         | some _ => .error (gostr "cannot unmarshal into []string") :
          Except GoStr (List GoStr)) with
      | .error e => .error e
      | .ok cs =>
        match
          (match jlookup fs (gostr "urls") with
           | none => .ok []
           | some (.arr es) => mapME unmarshalNamedURL es
           | some _ => .error (gostr "cannot unmarshal into []namedURL") :
            Except GoStr (List NamedURL)) with
        | .error e => .error e
        | .ok us => .ok ⟨n, cs, us⟩
  | _ => .error (gostr "cannot unmarshal into Project")

deriving instance DecidableEq for Except

/-- `json.Unmarshal(data, &projects)`. -/
def unmarshalProjects : Json → Except GoStr (List Project)
  | .arr es => mapME unmarshalProject es
  | _ => .error (gostr "cannot unmarshal into []Project")

/-- `loadProjects`: no data file yields the empty list, otherwise the file's
JSON value is unmarshalled. -/
def loadProjects (file : Option Json) : Except GoStr (List Project) :=
  match file with
  | none => .ok []
  | some j => unmarshalProjects j

/-- Every string of a project is valid UTF-8. -/
def projectStrsValid (p : Project) : Bool :=
  utf8Valid p.Name && p.Colors.all utf8Valid &&
    p.Urls.all (fun u => utf8Valid u.Name && utf8Valid u.URL)

def projectsStrsValid (ps : List Project) : Bool := ps.all projectStrsValid

-- --- RENDERING (the view functions) ---

/-- Rendered terminal text, kept as a tree: literal byte strings, stylings
(`style.Render(...)`, tagged by the style used), concatenation, and the bubbles
list widget's own view. Distinct trees stand for distinct final strings. -/
inductive RText where
  | nil
  | lit (s : GoStr)
  | styled (tag : GoStr) (t : RText)
  | cat (a b : RText)
  | widget (items : List ProjectItem) (index : Nat)
deriving DecidableEq, Repr

def rcat (ts : List RText) : RText := ts.foldr RText.cat RText.nil

/-- `horizontalHelp`: the help entries joined with a dot separator, rendered in
the help style. -/
def horizontalHelp (keys : List String) : RText :=
  .styled (gostr "helpStyle") (.lit (gostr (String.intercalate " • " keys)))

/-- The byte string of a quoted letter as it appears in the hint texts. -/
def quotedN : GoStr := [39, 110, 39]

/-- `viewProjectList`: widget view, help line, and the transient message, which
is cleared once rendered. -/
def viewProjectList (m : Model) : RText × Model :=
  let t := .cat (.widget m.projectList.items m.projectList.index)
            (.cat (.lit (gostr "\n")) (horizontalHelp ["↑/↓ navigate", "n new item", "q quit", "? more"]))
  if m.message ≠ [] then
    (.cat t (.cat (.lit (gostr "\n")) (.styled (gostr "messageStyle") (.lit m.message))),
     { m with message := [] })
  else (t, m)

/-- `viewProjectMenu`. -/
def viewProjectMenu (m : Model) : RText × Model :=
  let project := m.selProject
  let header := RText.cat (.styled (gostr "headerStyle") (.lit (gostr "✨ " ++ project.Name)))
                  (.lit (gostr "\n"))
  let options := [gostr "Colors", gostr "URLs"]
  let body := rcat (options.enum.map fun io =>
    if m.cursor = io.1 then
      .cat (.styled (gostr "selectedItemStyle") (.lit (gostr "> " ++ io.2))) (.lit (gostr "\n"))
    else .lit (gostr "  " ++ io.2 ++ gostr "\n"))
  (.cat header (.cat body (.cat (.lit (gostr "\n"))
     (horizontalHelp ["↑/↓ navigate", "enter select", "esc back", "q quit"]))), m)

/-- `viewColorList`: header, one line per color (color block plus inline-code
hex, with a cursor mark on the selected line), help, and the transient message,
cleared once rendered. -/
def viewColorList (m : Model) : RText × Model :=
  let project := m.selProject
  let header := RText.cat (.styled (gostr "headerStyle") (.lit project.Name)) (.lit (gostr "\n"))
  let body :=
    if project.Colors = [] then
      RText.cat (.styled (gostr "subtleStyle")
        (.lit (gostr "No colors yet. Press " ++ quotedN ++ gostr " to add one."))) (.lit (gostr "\n"))
    else rcat (project.Colors.enum.map fun ic =>
      let line := RText.cat (.styled (gostr "bg:" ++ ic.2) (.lit (gostr "  ")))
                    (.cat (.lit (gostr " ")) (.styled (gostr "inlineCodeStyle") (.lit ic.2)))
      if m.cursor = ic.1 then
        .cat (.styled (gostr "cursorStyle") (.lit (gostr "> ")))
          (.cat (.styled (gostr "selectedItemStyle") line) (.lit (gostr "\n")))
      else .cat (.lit (gostr "  ")) (.cat line (.lit (gostr "\n"))))
  let t := RText.cat header (.cat body (.cat (.lit (gostr "\n"))
    (horizontalHelp ["↑/↓ navigate", "enter copy", "n new color", "esc back", "q quit"])))
  if m.message ≠ [] then
    (.cat t (.cat (.lit (gostr "\n")) (.styled (gostr "messageStyle") (.lit m.message))),
     { m with message := [] })
  else (t, m)

/-- `viewUrlList`. -/
def viewUrlList (m : Model) : RText × Model :=
  let project := m.selProject
  let header := RText.cat (.styled (gostr "headerStyle") (.lit project.Name)) (.lit (gostr "\n"))
  let body :=
    if project.Urls = [] then
      RText.cat (.styled (gostr "subtleStyle")
        (.lit (gostr "No URLs yet. Press " ++ quotedN ++ gostr " to add one."))) (.lit (gostr "\n"))
    else rcat (project.Urls.enum.map fun iu =>
      if m.cursor = iu.1 then
        .cat (.styled (gostr "selectedItemStyle") (.lit (gostr "> " ++ iu.2.Name))) (.lit (gostr "\n"))
      else .lit (gostr "  " ++ iu.2.Name ++ gostr "\n"))
  let t := RText.cat header (.cat body (.cat (.lit (gostr "\n"))
    (horizontalHelp ["↑/↓ navigate", "enter copy", "n new URL", "esc back", "q quit"])))
  if m.message ≠ [] then
    (.cat t (.cat (.lit (gostr "\n")) (.styled (gostr "messageStyle") (.lit m.message))),
     { m with message := [] })
  else (t, m)

/-- `viewAddProject`. -/
def viewAddProject (m : Model) : RText × Model :=
  (.cat (.cat (.styled (gostr "headerStyle") (.lit (gostr "Add New Project"))) (.lit (gostr "\n")))
     (.cat (.cat (.styled (gostr "inputStyle") (.lit (gostr "Project name: " ++ m.inputBuffer)))
        (.lit (gostr "\n\n")))
      (horizontalHelp ["enter save", "esc cancel"])), m)

/-- `viewAddColor`. -/
def viewAddColor (m : Model) : RText × Model :=
  (.cat (.cat (.styled (gostr "headerStyle") (.lit (gostr "Add New Color"))) (.lit (gostr "\n")))
     (.cat (.cat (.styled (gostr "inputStyle") (.lit (gostr "HEX color: " ++ m.inputBuffer)))
        (.lit (gostr "\n\n")))
      (.cat (.cat (.styled (gostr "helpStyle") (.lit (gostr "Enter HEX (e.g., #FF5F87)")))
         (.lit (gostr "\n")))
       (horizontalHelp ["enter save", "esc cancel"]))), m)

/-- `viewAddUrl`. -/
def viewAddUrl (m : Model) : RText × Model :=
  let namePrompt := gostr "Name: " ++ m.urlNameBuffer
  let urlPrompt := gostr "URL: " ++ m.inputBuffer
  let fields :=
    if m.focusedField = 0 then
      RText.cat (.cat (.styled (gostr "inputStyle") (.lit namePrompt)) (.lit (gostr "\n")))
        (.cat (.styled (gostr "subtleStyle") (.lit urlPrompt)) (.lit (gostr "\n\n")))
    else
      RText.cat (.cat (.styled (gostr "subtleStyle") (.lit namePrompt)) (.lit (gostr "\n")))
        (.cat (.styled (gostr "inputStyle") (.lit urlPrompt)) (.lit (gostr "\n\n")))
  (.cat (.cat (.styled (gostr "headerStyle") (.lit (gostr "Add New URL"))) (.lit (gostr "\n")))
     (.cat fields (horizontalHelp ["enter next/save", "tab switch fields", "esc cancel"])), m)

-- --- SPEC-SIDE DEFINITIONS AND THE CURSOR INVARIANT ---

/-- The hex-acceptance condition as the specification words it: the buffer
starts with `#` and has total length exactly 4 or exactly 7. -/
def specHexAccepted (b : GoStr) : Bool :=
  [35].isPrefixOf b && (b.length = 4 || b.length = 7)

/-- The cursor is in range for a list of `n` entries: 0 when the list is empty,
within `[0, n-1]` otherwise. -/
def cursOK (c : Int) (n : Nat) : Prop := (n = 0 → c = 0) ∧ (0 < n → 0 ≤ c ∧ c < n)

/-- The bubbles list widget's cursor is in range for its items. -/
def widgetOK (pl : PList) : Prop :=
  (pl.items.length = 0 → pl.index = 0) ∧ (0 < pl.items.length → pl.index < pl.items.length)

/-- The cursor/selection invariant that actually holds in every reachable
state: the cursor is never negative; in the color list and the add-color view
it is in range for the selected project's colors; in the URL list and the
add-URL view it is in range for the selected project's URLs; and whenever a
project is needed (`ProjectMenu` and the four views above) the selected index
is in range.  (In `ProjectMenu` the cursor itself is *not* always within
`[0,1]`: returning from a list view via `esc` keeps the list cursor.)
The widget's items are, in every reachable state, the projection of the
project list, and the widget's own cursor is in range for them. -/
def Inv (m : Model) : Prop :=
  0 ≤ m.cursor ∧
  m.projectList.items = m.projects.map Project.toItem ∧
  widgetOK m.projectList ∧
  match m.currentView with
  | .ColorListView | .AddColorView =>
    m.selectedProject < m.projects.length ∧ cursOK m.cursor m.selColors.length
  | .UrlListView | .AddUrlView =>
    m.selectedProject < m.projects.length ∧ cursOK m.cursor m.selUrls.length
  | .ProjectMenuView => m.selectedProject < m.projects.length
  | _ => True

-- --- CONCRETE INPUTS USED BY COUNTEREXAMPLES AND WITNESSES ---

/-- Two projects sharing the name `X`. -/
def psDup : List Project := [⟨gostr "X", [], []⟩, ⟨gostr "X", [gostr "#111"], []⟩]

/-- One project with three colors. -/
def psOne : List Project := [⟨gostr "P", [gostr "#111", gostr "#222", gostr "#333"], []⟩]

/-- Select the project, open its color list, move down twice, cancel back to
the project menu. -/
def cexC3Keys : List KeyMsg := [keyEnter, keyEnter, keyDown, keyDown, keyEsc]

/-- Move the widget cursor to the second item and select it. -/
def cexC4Keys : List KeyMsg := [keyDown, keyEnter]

/-- Open the add-project view, type `é` (bytes C3 A9), press backspace. -/
def cexC5Keys : List KeyMsg := [keyRunes [110], keyRunes [0xE9], keyBackspace]

/-- Reach the add-color view and type `aaaaaa` followed by `€` (three bytes). -/
def cexC6Keys : List KeyMsg :=
  [keyEnter, keyEnter, keyRunes [110], keyRunes [97], keyRunes [97], keyRunes [97],
   keyRunes [97], keyRunes [97], keyRunes [97], keyRunes [0x20AC]]

/-- A project holding a color whose bytes `# a b C3` are not valid UTF-8 (the
kind of string the add-color flow can store after a byte-wise backspace). -/
def psBadUtf8 : List Project := [⟨gostr "P", [[35, 97, 98, 0xC3]], []⟩]

/-- A color-list state carrying a pending status message. -/
def cexC9Model : Model :=
  { projectList := ⟨psOne.map Project.toItem, 0⟩
    projects := psOne
    currentView := .ColorListView
    cursor := 0
    selectedProject := 0
    inputBuffer := []
    urlNameBuffer := []
    focusedField := 0
    message := gostr "hi" }

/-- An add-URL state with an empty name buffer but a non-empty URL buffer,
focused on the URL field. -/
def cexAddUrlModel : Model :=
  { projectList := ⟨psOne.map Project.toItem, 0⟩
    projects := psOne
    currentView := .AddUrlView
    cursor := 0
    selectedProject := 0
    inputBuffer := gostr "https://x"
    urlNameBuffer := []
    focusedField := 1
    message := [] }

/-- An add-project state with a non-empty name buffer. -/
def cexAddProjectModel : Model :=
  { projectList := ⟨psOne.map Project.toItem, 0⟩
    projects := psOne
    currentView := .AddProjectView
    cursor := 0
    selectedProject := 0
    inputBuffer := gostr "ab"
    urlNameBuffer := []
    focusedField := 0
    message := [] }

/-- An add-color state with a buffer holding a full six-digit hex color. -/
def cexAddColorModel : Model :=
  { projectList := ⟨psOne.map Project.toItem, 0⟩
    projects := psOne
    currentView := .AddColorView
    cursor := 2
    selectedProject := 0
    inputBuffer := gostr "#FF5733"
    urlNameBuffer := []
    focusedField := 0
    message := [] }

/-- The project-list state reached from two same-named projects after one
`down` key: the widget cursor rests on the second item. -/
def cexC4Model : Model := steps .ok (initialModel psDup) [keyDown]

-- --- HELPER LEMMAS: key strings as byte lists (so `simp` can decide the
-- handlers' switch conditions) ---

@[simp] theorem gostr_ctrlc : gostr "ctrl+c" = [99, 116, 114, 108, 43, 99] := by decide

@[simp] theorem gostr_q : gostr "q" = [113] := by decide

@[simp] theorem gostr_esc : gostr "esc" = [101, 115, 99] := by decide

@[simp] theorem gostr_enter : gostr "enter" = [101, 110, 116, 101, 114] := by decide

@[simp] theorem gostr_n : gostr "n" = [110] := by decide

@[simp] theorem gostr_up : gostr "up" = [117, 112] := by decide

@[simp] theorem gostr_k : gostr "k" = [107] := by decide

@[simp] theorem gostr_down : gostr "down" = [100, 111, 119, 110] := by decide

@[simp] theorem gostr_j : gostr "j" = [106] := by decide

@[simp] theorem gostr_backspace : gostr "backspace" = [98, 97, 99, 107, 115, 112, 97, 99, 101] := by
  decide

@[simp] theorem gostr_tab : gostr "tab" = [116, 97, 98] := by decide

@[simp] theorem gostr_space : gostr " " = [32] := by decide

@[simp] theorem keyEnter_str : keyEnter.str = [101, 110, 116, 101, 114] := by decide

@[simp] theorem keyEsc_str : keyEsc.str = [101, 115, 99] := by decide

@[simp] theorem keyBackspace_str : keyBackspace.str = [98, 97, 99, 107, 115, 112, 97, 99, 101] := by
  decide

@[simp] theorem keyTab_str : keyTab.str = [116, 97, 98] := by decide

@[simp] theorem keyUp_str : keyUp.str = [117, 112] := by decide

@[simp] theorem keyDown_str : keyDown.str = [100, 111, 119, 110] := by decide

@[simp] theorem keyCtrlC_str : keyCtrlC.str = [99, 116, 114, 108, 43, 99] := by decide

@[simp] theorem keySpace_str : keySpace.str = [32] := by decide

@[simp] theorem keyRunes_str (rs : List Nat) : (keyRunes rs).str = runesToStr rs := rfl

@[simp] theorem keyEnter_type : keyEnter.type = KeyType.enter := rfl

@[simp] theorem keyRunes_type (rs : List Nat) : (keyRunes rs).type = KeyType.runes := rfl

theorem saveProjects_no_quit (env : SaveOutcome) (m : Model) :
    Effect.quit ∉ (saveProjects env m).2 := by
  cases env <;> simp [saveProjects]

theorem saveProjects_no_save_of_fail (env : SaveOutcome) (m : Model) (h : env ≠ .ok) :
    ∀ ps, Effect.save ps ∉ (saveProjects env m).2 := by
  cases env <;> simp_all [saveProjects]

-- --- C7 ---

/-- C7: in the AddUrl view, whenever the URL-name buffer is empty, confirm
(enter) never appends a URL entry: the project list is unchanged, the view
stays AddUrl, both text buffers keep their contents, and nothing is saved —
regardless of the URL buffer's content and of which field is focused. -/
theorem addUrl_confirm_empty_name_rejected (env : SaveOutcome) (m : Model)
    (hv : m.currentView = .AddUrlView) (hn : m.urlNameBuffer = []) :
    (stepKey env m keyEnter).1.projects = m.projects ∧
    (stepKey env m keyEnter).1.currentView = .AddUrlView ∧
    (stepKey env m keyEnter).1.inputBuffer = m.inputBuffer ∧
    (stepKey env m keyEnter).1.urlNameBuffer = [] ∧
    ∀ ps, Effect.save ps ∉ (stepKey env m keyEnter).2 := by
  obtain ⟨pl, ps, cv, c, sp, ib, unb, ff, msg⟩ := m
  simp only at hv hn
  subst hv; subst hn
  simp only [stepKey]
  simp [updateAddUrl]
  split <;> simp

/-- Witness for C7 at a concrete add-URL state with an empty name buffer and a
non-empty URL buffer focused on the URL field. -/
theorem addUrl_confirm_empty_name_rejected_witness :
    cexAddUrlModel.currentView = .AddUrlView ∧ cexAddUrlModel.urlNameBuffer = [] ∧
    ((stepKey .ok cexAddUrlModel keyEnter).1.projects = cexAddUrlModel.projects ∧
     (stepKey .ok cexAddUrlModel keyEnter).1.currentView = .AddUrlView ∧
     (stepKey .ok cexAddUrlModel keyEnter).1.inputBuffer = cexAddUrlModel.inputBuffer ∧
     (stepKey .ok cexAddUrlModel keyEnter).1.urlNameBuffer = [] ∧
     ∀ ps, Effect.save ps ∉ (stepKey .ok cexAddUrlModel keyEnter).2) :=
  ⟨by decide, by decide,
   addUrl_confirm_empty_name_rejected .ok cexAddUrlModel (by decide) (by decide)⟩

-- --- C5 ---

/-- C5's counterexample: in the add-project view, after typing the single
character `é` (UTF-8 bytes C3 A9) the buffer holds two bytes; backspace then
leaves the dangling byte C3 rather than removing the whole code point (which
would leave the buffer empty, as the claim states). -/
theorem backspace_removes_byte_counterexample :
    (steps .ok (initialModel []) [keyRunes [110], keyRunes [0xE9]]).inputBuffer =
      [0xC3, 0xA9] ∧
    (steps .ok (initialModel []) cexC5Keys).currentView = .AddProjectView ∧
    (steps .ok (initialModel []) cexC5Keys).inputBuffer = [0xC3] ∧
    [0xC3] ≠ ([] : GoStr) := by decide

/-- C5 amended: in each text-entry view, backspace removes the last *byte* of
the focused buffer (`buf = buf[:len(buf)-1]`), which equals the last character
only when that character is ASCII, and is a no-op when the buffer is empty. -/
theorem backspace_drops_last_byte (env : SaveOutcome) (m : Model) :
    (m.currentView = .AddProjectView →
      (stepKey env m keyBackspace).1 = { m with inputBuffer := m.inputBuffer.dropLast }) ∧
    (m.currentView = .AddColorView →
      (stepKey env m keyBackspace).1 = { m with inputBuffer := m.inputBuffer.dropLast }) ∧
    (m.currentView = .AddUrlView → m.focusedField = 0 →
      (stepKey env m keyBackspace).1 = { m with urlNameBuffer := m.urlNameBuffer.dropLast }) ∧
    (m.currentView = .AddUrlView → m.focusedField ≠ 0 →
      (stepKey env m keyBackspace).1 = { m with inputBuffer := m.inputBuffer.dropLast }) := by
  obtain ⟨pl, ps, cv, c, sp, ib, unb, ff, msg⟩ := m
  refine ⟨?_, ?_, ?_, ?_⟩ <;> intro hv <;> simp only at hv <;> subst hv <;>
    simp only [stepKey] <;>
    simp [updateAddProject, updateAddColor, updateAddUrl]
  · cases ib <;> simp
  · cases ib <;> simp
  · intro hff
    subst hff
    cases unb <;> simp
  · intro hff
    simp [hff]
    cases ib <;> simp_all

/-- Witness for C5's amended theorem at a concrete add-project state. -/
theorem backspace_drops_last_byte_witness :
    cexAddProjectModel.currentView = .AddProjectView ∧
    (stepKey .ok cexAddProjectModel keyBackspace).1 =
      { cexAddProjectModel with inputBuffer := cexAddProjectModel.inputBuffer.dropLast } :=
  ⟨by decide, (backspace_drops_last_byte .ok cexAddProjectModel).1 (by decide)⟩

-- --- C3 counterexample ---

/-- C3's counterexample: select the only project, open its color list, move
the cursor down twice (to index 2 of the three colors), then cancel back to
the project menu: the state is in ProjectMenu with cursor 2, outside `[0,1]`. -/
theorem projectMenu_cursor_out_of_range_counterexample :
    (steps .ok (initialModel psOne) cexC3Keys).currentView = .ProjectMenuView ∧
    (steps .ok (initialModel psOne) cexC3Keys).cursor = 2 ∧
    ¬((steps .ok (initialModel psOne) cexC3Keys).cursor ≤ 1) := by decide

-- --- C4 counterexample ---

/-- C4's counterexample: with two projects both named `X`, moving the widget
cursor to the second item and confirming transitions to ProjectMenu but sets
`selectedProject` to 0 — the index of the *first* project with that name — not
to the chosen index 1. -/
theorem select_duplicate_name_counterexample :
    (steps .ok (initialModel psDup) [keyDown]).projectList.index = 1 ∧
    (steps .ok (initialModel psDup) cexC4Keys).currentView = .ProjectMenuView ∧
    (steps .ok (initialModel psDup) cexC4Keys).selectedProject = 0 ∧
    (steps .ok (initialModel psDup) cexC4Keys).selectedProject ≠ 1 := by decide

-- --- C6 counterexample ---

/-- C6's counterexample: in the add-color view, after six ASCII characters
(6 bytes, below the cap of 7) one more character-input event carrying `€`
(three UTF-8 bytes) is accepted, leaving a 9-byte buffer — the buffer length
exceeds 7. -/
theorem addColor_buffer_exceeds_seven_counterexample :
    (steps .ok (initialModel psOne) cexC6Keys).currentView = .AddColorView ∧
    (steps .ok (initialModel psOne) cexC6Keys).inputBuffer.length = 9 ∧
    ¬((steps .ok (initialModel psOne) cexC6Keys).inputBuffer.length ≤ 7) := by decide

-- --- C9 counterexample ---

/-- C9's counterexample: `viewColorList` is not pure — on a state carrying a
status message it clears the message field, and rendering the resulting state
again yields different text (the message block is gone). -/
theorem render_clears_message_counterexample :
    cexC9Model.message ≠ [] ∧
    (viewColorList cexC9Model).2.message = [] ∧
    (viewColorList ((viewColorList cexC9Model).2)).1 ≠ (viewColorList cexC9Model).1 := by decide

-- --- C2 counterexample ---

/-- C2's counterexample: a project list holding a color string whose bytes are
not valid UTF-8 (`# a b C3` — a string the add-color flow can produce, since
backspace drops single bytes and validation checks only the first byte and the
length) does not survive a save/load round trip: Go's JSON encoder coerces the
string, replacing the invalid byte C3 with U+FFFD. -/
theorem save_load_not_id_on_invalid_utf8 :
    loadProjects (some (marshalProjects psBadUtf8)) =
      .ok [⟨gostr "P", [[35, 97, 98, 0xEF, 0xBF, 0xBD]], []⟩] ∧
    loadProjects (some (marshalProjects psBadUtf8)) ≠ .ok psBadUtf8 := by decide

-- --- C3: the cursor invariant ---

theorem getD_set_self (l : List α) (i : Nat) (a : α) (d : α) (hlt : i < l.length) :
    (l.set i a).getD i d = a := by
  simp [List.getD_eq_getElem?_getD, List.getElem?_set_self', List.getElem?_eq_getElem hlt]

theorem updateColorList_inv (m : Model) (k : KeyMsg) (h : Inv m)
    (hv : m.currentView = .ColorListView) : Inv (updateColorList m k).1 := by
  obtain ⟨⟨plitems, plidx⟩, ps, cv, c, sp, ib, unb, ff, msg⟩ := m
  simp only at hv; subst hv
  simp only [Inv, widgetOK, cursOK, Model.selColors, Model.selUrls, Model.selProject] at h
  obtain ⟨h0, hsync, hw, hrest⟩ := h
  try simp only at hsync
  subst hsync
  simp only [updateColorList]
  repeat' split
  all_goals simp only [Inv, widgetOK, cursOK, Model.selColors, Model.selUrls,
    Model.selProject, and_true, true_and, implies_true, and_self, List.length_set,
    List.length_map, List.length_append, List.length_cons, List.length_nil] at *
  all_goals repeat' apply And.intro
  all_goals first | rfl | omega | trivial

theorem updateUrlList_inv (m : Model) (k : KeyMsg) (h : Inv m)
    (hv : m.currentView = .UrlListView) : Inv (updateUrlList m k).1 := by
  obtain ⟨⟨plitems, plidx⟩, ps, cv, c, sp, ib, unb, ff, msg⟩ := m
  simp only at hv; subst hv
  simp only [Inv, widgetOK, cursOK, Model.selColors, Model.selUrls, Model.selProject] at h
  obtain ⟨h0, hsync, hw, hrest⟩ := h
  try simp only at hsync
  subst hsync
  simp only [updateUrlList]
  repeat' split
  all_goals simp only [Inv, widgetOK, cursOK, Model.selColors, Model.selUrls,
    Model.selProject, and_true, true_and, implies_true, and_self, List.length_set,
    List.length_map, List.length_append, List.length_cons, List.length_nil] at *
  all_goals repeat' apply And.intro
  all_goals first | rfl | omega | trivial

theorem updateProjectMenu_inv (m : Model) (k : KeyMsg) (h : Inv m)
    (hv : m.currentView = .ProjectMenuView) : Inv (updateProjectMenu m k).1 := by
  obtain ⟨⟨plitems, plidx⟩, ps, cv, c, sp, ib, unb, ff, msg⟩ := m
  simp only at hv; subst hv
  simp only [Inv, widgetOK, cursOK, Model.selColors, Model.selUrls, Model.selProject] at h
  obtain ⟨h0, hsync, hw, hrest⟩ := h
  try simp only at hsync
  subst hsync
  simp only [updateProjectMenu]
  repeat' split
  all_goals simp only [Inv, widgetOK, cursOK, Model.selColors, Model.selUrls,
    Model.selProject, and_true, true_and, implies_true, and_self, List.length_set,
    List.length_map, List.length_append, List.length_cons, List.length_nil] at *
  all_goals repeat' apply And.intro
  all_goals first | rfl | omega | trivial

theorem updateProjectList_inv (m : Model) (k : KeyMsg) (h : Inv m)
    (hv : m.currentView = .ProjectListView) : Inv (updateProjectList m k).1 := by
  obtain ⟨⟨plitems, plidx⟩, ps, cv, c, sp, ib, unb, ff, msg⟩ := m
  simp only at hv; subst hv
  simp only [Inv, widgetOK, cursOK, Model.selColors, Model.selUrls, Model.selProject] at h
  obtain ⟨h0, hsync, hw, hrest⟩ := h
  try simp only at hsync
  subst hsync
  simp only [updateProjectList, plUpdate]
  repeat' split
  all_goals simp only [Inv, widgetOK, cursOK, Model.selColors, Model.selUrls,
    Model.selProject, and_true, true_and, implies_true, and_self, List.length_set,
    List.length_map, List.length_append, List.length_cons, List.length_nil] at *
  all_goals repeat' apply And.intro
  all_goals try first | rfl | omega | trivial
  all_goals rename_i heq
  all_goals exact (List.findIdx?_eq_some_iff_findIdx_eq.mp heq).1

theorem updateAddProject_inv (env : SaveOutcome) (m : Model) (k : KeyMsg) (h : Inv m)
    (hv : m.currentView = .AddProjectView) : Inv (updateAddProject env m k).1 := by
  obtain ⟨⟨plitems, plidx⟩, ps, cv, c, sp, ib, unb, ff, msg⟩ := m
  simp only at hv; subst hv
  simp only [Inv, widgetOK, cursOK, Model.selColors, Model.selUrls, Model.selProject] at h
  obtain ⟨h0, hsync, hw, hrest⟩ := h
  try simp only at hsync
  subst hsync
  simp only [updateAddProject, updateProjectListItems]
  cases env
  all_goals simp only [saveProjects]
  all_goals repeat' split
  all_goals simp only [Inv, widgetOK, cursOK, Model.selColors, Model.selUrls,
    Model.selProject, and_true, true_and, implies_true, and_self, List.length_set,
    List.length_map, List.length_append, List.length_cons, List.length_nil] at *
  all_goals repeat' apply And.intro
  all_goals first | rfl | omega | trivial

theorem updateAddColor_inv (env : SaveOutcome) (m : Model) (k : KeyMsg) (h : Inv m)
    (hv : m.currentView = .AddColorView) : Inv (updateAddColor env m k).1 := by
  obtain ⟨⟨plitems, plidx⟩, ps, cv, c, sp, ib, unb, ff, msg⟩ := m
  simp only at hv; subst hv
  simp only [Inv, widgetOK, cursOK, Model.selColors, Model.selUrls, Model.selProject] at h
  obtain ⟨h0, hsync, hw, hrest⟩ := h
  try simp only at hsync
  subst hsync
  simp only [updateAddColor, updateProjectListItems]
  cases env
  all_goals simp only [saveProjects]
  all_goals repeat' split
  all_goals simp only [Inv, widgetOK, cursOK, Model.selColors, Model.selUrls,
    Model.selProject, and_true, true_and, implies_true, and_self, List.length_set,
    List.length_map, List.length_append, List.length_cons, List.length_nil] at *
  all_goals repeat' apply And.intro
  all_goals try first | rfl | omega | trivial
  all_goals rw [getD_set_self _ _ _ _ (by omega)]
  all_goals simp only [List.length_append, List.length_cons, List.length_nil]
  all_goals omega

theorem updateAddUrl_inv (env : SaveOutcome) (m : Model) (k : KeyMsg) (h : Inv m)
    (hv : m.currentView = .AddUrlView) : Inv (updateAddUrl env m k).1 := by
  obtain ⟨⟨plitems, plidx⟩, ps, cv, c, sp, ib, unb, ff, msg⟩ := m
  simp only at hv; subst hv
  simp only [Inv, widgetOK, cursOK, Model.selColors, Model.selUrls, Model.selProject] at h
  obtain ⟨h0, hsync, hw, hrest⟩ := h
  try simp only at hsync
  subst hsync
  simp only [updateAddUrl, updateProjectListItems]
  cases env
  all_goals simp only [saveProjects]
  all_goals repeat' split
  all_goals simp only [Inv, widgetOK, cursOK, Model.selColors, Model.selUrls,
    Model.selProject, and_true, true_and, implies_true, and_self, List.length_set,
    List.length_map, List.length_append, List.length_cons, List.length_nil] at *
  all_goals repeat' apply And.intro
  all_goals try first | rfl | omega | trivial
  all_goals rw [getD_set_self _ _ _ _ (by omega)]
  all_goals simp only [List.length_append, List.length_cons, List.length_nil]
  all_goals omega

theorem stepKey_inv (env : SaveOutcome) (m : Model) (k : KeyMsg) (h : Inv m) :
    Inv (stepKey env m k).1 := by
  cases hv : m.currentView
  all_goals simp only [stepKey, hv]
  · exact updateProjectList_inv m k h hv
  · exact updateColorList_inv m k h hv
  · exact updateAddProject_inv env m k h hv
  · exact updateAddColor_inv env m k h hv
  · exact updateUrlList_inv m k h hv
  · exact updateAddUrl_inv env m k h hv
  · exact updateProjectMenu_inv m k h hv

theorem steps_inv (env : SaveOutcome) (ks : List KeyMsg) (m : Model) (h : Inv m) :
    Inv (steps env m ks) := by
  induction ks generalizing m with
  | nil => exact h
  | cons k ks ih =>
    simp only [steps, List.foldl_cons] at ih ⊢
    exact ih _ (stepKey_inv env m k h)

theorem initialModel_inv (ps : List Project) : Inv (initialModel ps) := by
  simp only [Inv, widgetOK, initialModel, List.length_map, and_true, true_and, implies_true]
  exact ⟨le_refl 0, fun h => h⟩

/-- C3 amended: in every state reachable from the initial state by key events,
the cursor is never negative; in ColorList (and AddColor) it lies within
`[0, n-1]` when the selected project's color list has size `n > 0` and equals 0
when that list is empty; likewise in UrlList (and AddUrl) for the URL list;
whenever a project is selected (`ProjectMenu` and the four views above) the
selected index is in range, and the project-list widget's cursor is in range
for its items, which mirror the projects.  Pressing up at index 0, or down at
the last index, leaves the cursor unchanged (no wraparound) in ColorList,
UrlList and ProjectMenu.  The original claim's `[0,1]` bound for ProjectMenu
does *not* hold on re-entry via `esc` (see the counterexample); within
ProjectMenu, up at 0 and down at any index ≥ 1 are still no-ops. -/
theorem cursor_invariant_amended (env : SaveOutcome) (ps : List Project) (ks : List KeyMsg) :
    Inv (steps env (initialModel ps) ks) ∧
    (∀ m : Model, m.currentView = .ColorListView → m.cursor = 0 →
       (stepKey env m keyUp).1.cursor = 0) ∧
    (∀ m : Model, m.currentView = .ColorListView →
       m.cursor = (m.selColors.length : Int) - 1 →
       (stepKey env m keyDown).1.cursor = m.cursor) ∧
    (∀ m : Model, m.currentView = .UrlListView → m.cursor = 0 →
       (stepKey env m keyUp).1.cursor = 0) ∧
    (∀ m : Model, m.currentView = .UrlListView →
       m.cursor = (m.selUrls.length : Int) - 1 →
       (stepKey env m keyDown).1.cursor = m.cursor) ∧
    (∀ m : Model, m.currentView = .ProjectMenuView → m.cursor = 0 →
       (stepKey env m keyUp).1.cursor = 0) ∧
    (∀ m : Model, m.currentView = .ProjectMenuView → 1 ≤ m.cursor →
       (stepKey env m keyDown).1.cursor = m.cursor) := by
  refine ⟨steps_inv env ks _ (initialModel_inv ps), ?_, ?_, ?_, ?_, ?_, ?_⟩
  · intro m hv hc
    obtain ⟨pl, ps', cv, c, sp, ib, unb, ff, msg⟩ := m
    simp only at hv hc
    subst hv; subst hc
    simp only [stepKey]
    simp [updateColorList]
  · intro m hv hc
    obtain ⟨pl, ps', cv, c, sp, ib, unb, ff, msg⟩ := m
    simp only [Model.selColors, Model.selProject] at hv hc
    subst hv; subst hc
    simp only [stepKey]
    simp [updateColorList, Model.selColors, Model.selProject]
  · intro m hv hc
    obtain ⟨pl, ps', cv, c, sp, ib, unb, ff, msg⟩ := m
    simp only at hv hc
    subst hv; subst hc
    simp only [stepKey]
    simp [updateUrlList]
  · intro m hv hc
    obtain ⟨pl, ps', cv, c, sp, ib, unb, ff, msg⟩ := m
    simp only [Model.selUrls, Model.selProject] at hv hc
    subst hv; subst hc
    simp only [stepKey]
    simp [updateUrlList, Model.selUrls, Model.selProject]
  · intro m hv hc
    obtain ⟨pl, ps', cv, c, sp, ib, unb, ff, msg⟩ := m
    simp only at hv hc
    subst hv; subst hc
    simp only [stepKey]
    simp [updateProjectMenu]
  · intro m hv hc
    obtain ⟨pl, ps', cv, c, sp, ib, unb, ff, msg⟩ := m
    simp only at hv hc
    subst hv
    simp only [stepKey]
    by_cases hlt : c < 1
    · simp [updateProjectMenu, hlt]
      omega
    · simp [updateProjectMenu, hlt]

/-- Witness for C3's amended theorem: the invariant evaluated on a concrete
run, and the up-at-0 no-op at a concrete color-list state. -/
theorem cursor_invariant_amended_witness :
    Inv (steps .ok (initialModel psOne) cexC3Keys) ∧
    cexC9Model.currentView = .ColorListView ∧ cexC9Model.cursor = 0 ∧
    (stepKey .ok cexC9Model keyUp).1.cursor = 0 :=
  ⟨(cursor_invariant_amended .ok psOne cexC3Keys).1, by decide, by decide,
   (cursor_invariant_amended .ok psOne cexC3Keys).2.1 cexC9Model (by decide) (by decide)⟩

-- --- C10 ---

@[simp] theorem keyRunes_runes (rs : List Nat) : (keyRunes rs).runes = rs := rfl

@[simp] theorem runesToStr_q : runesToStr [113] = [113] := by decide

theorem addViews_quit_iff (env : SaveOutcome) (m : Model) (k : KeyMsg)
    (hv : m.currentView = .AddProjectView ∨ m.currentView = .AddColorView ∨
      m.currentView = .AddUrlView) :
    (Effect.quit ∈ (stepKey env m k).2 ↔ k.str = gostr "ctrl+c") := by
  obtain ⟨pl, ps, cv, c, sp, ib, unb, ff, msg⟩ := m
  simp only at hv
  by_cases hc : k.str = gostr "ctrl+c"
  all_goals simp only [gostr_ctrlc] at hc
  all_goals rcases hv with hv | hv | hv
  all_goals subst hv
  all_goals simp only [stepKey]
  all_goals simp only [updateAddProject, updateAddColor, updateAddUrl]
  all_goals repeat' split
  all_goals try simp_all
  all_goals try exact saveProjects_no_quit env _

/-- C10: in the three text-entry views a plain `q` key (a rune event) does not
quit: it is appended to the focused buffer (in AddColor only while the buffer
is below the 7-byte cap), leaves the view unchanged, and produces no quit
command; and a key quits from these views exactly when its key string is
`ctrl+c`. -/
theorem addViews_q_is_input_only_ctrlc_quits (env : SaveOutcome) (m : Model)
    (hv : m.currentView = .AddProjectView ∨ m.currentView = .AddColorView ∨
      m.currentView = .AddUrlView) :
    Effect.quit ∉ (stepKey env m (keyRunes [113])).2 ∧
    (stepKey env m (keyRunes [113])).1.currentView = m.currentView ∧
    (m.currentView = .AddProjectView →
      (stepKey env m (keyRunes [113])).1.inputBuffer = m.inputBuffer ++ [113]) ∧
    (m.currentView = .AddColorView →
      (stepKey env m (keyRunes [113])).1.inputBuffer =
        if m.inputBuffer.length < 7 then m.inputBuffer ++ [113] else m.inputBuffer) ∧
    (m.currentView = .AddUrlView → m.focusedField = 0 →
      (stepKey env m (keyRunes [113])).1.urlNameBuffer = m.urlNameBuffer ++ [113] ∧
      (stepKey env m (keyRunes [113])).1.inputBuffer = m.inputBuffer) ∧
    (m.currentView = .AddUrlView → m.focusedField ≠ 0 →
      (stepKey env m (keyRunes [113])).1.inputBuffer = m.inputBuffer ++ [113] ∧
      (stepKey env m (keyRunes [113])).1.urlNameBuffer = m.urlNameBuffer) ∧
    (∀ k : KeyMsg, Effect.quit ∈ (stepKey env m k).2 ↔ k.str = gostr "ctrl+c") := by
  have hq := addViews_quit_iff env m (keyRunes [113]) hv
  refine ⟨fun hmem => by simpa using hq.mp hmem, ?_, ?_, ?_, ?_, ?_,
    fun k => addViews_quit_iff env m k hv⟩
  all_goals obtain ⟨pl, ps, cv, c, sp, ib, unb, ff, msg⟩ := m
  all_goals simp only at hv
  all_goals rcases hv with hv | hv | hv
  all_goals subst hv
  all_goals try intro h1
  all_goals try intro h2
  all_goals try simp only at h1
  all_goals simp only [stepKey]
  all_goals simp [updateAddProject, updateAddColor, updateAddUrl]
  all_goals try simp_all
  all_goals try split
  all_goals simp_all

/-- Witness for C10 at a concrete add-project state. -/
theorem addViews_q_is_input_witness :
    cexAddProjectModel.currentView = .AddProjectView ∧
    Effect.quit ∉ (stepKey .ok cexAddProjectModel (keyRunes [113])).2 ∧
    (stepKey .ok cexAddProjectModel (keyRunes [113])).1.inputBuffer =
      cexAddProjectModel.inputBuffer ++ [113] :=
  ⟨by decide,
   (addViews_q_is_input_only_ctrlc_quits .ok cexAddProjectModel (Or.inl (by decide))).1,
   (addViews_q_is_input_only_ctrlc_quits .ok cexAddProjectModel (Or.inl (by decide))).2.2.1
     (by decide)⟩

-- --- C1 ---

/-- The handler's acceptance condition (`buffer non-empty, starts with "#",
byte length 7 or 4`) coincides with the specification's wording (`starts with
"#" and total length exactly 4 or exactly 7`): a buffer starting with `#` is
never empty. -/
theorem specHexAccepted_iff (b : GoStr) :
    specHexAccepted b = true ↔
      (b ≠ [] ∧ [35].isPrefixOf b = true ∧ (b.length = 7 ∨ b.length = 4)) := by
  cases b with
  | nil => simp [specHexAccepted]
  | cons x xs =>
    simp [specHexAccepted, Bool.and_eq_true, Bool.or_eq_true, decide_eq_true_eq]
    tauto

/-- C1: in the AddColor view with a valid selected project, confirming appends
the buffer to the selected project's colors, saves the project list, and
switches to ColorList exactly when the buffer starts with `#` and has length 4
or 7; any other buffer (the empty one included) leaves the whole state
unchanged and produces no effect. -/
theorem addColor_confirm_iff_spec (m : Model)
    (hv : m.currentView = .AddColorView) (hsel : m.selectedProject < m.projects.length) :
    (specHexAccepted m.inputBuffer = true →
      (stepKey .ok m keyEnter).1.projects =
        m.projects.set m.selectedProject
          { m.selProject with Colors := m.selProject.Colors ++ [m.inputBuffer] } ∧
      (stepKey .ok m keyEnter).1.selectedProject = m.selectedProject ∧
      (stepKey .ok m keyEnter).1.selColors = m.selColors ++ [m.inputBuffer] ∧
      (stepKey .ok m keyEnter).1.currentView = .ColorListView ∧
      (stepKey .ok m keyEnter).2 = [Effect.save ((stepKey .ok m keyEnter).1.projects)]) ∧
    (specHexAccepted m.inputBuffer = false →
      (stepKey .ok m keyEnter).1 = m ∧ (stepKey .ok m keyEnter).2 = []) := by
  obtain ⟨pl, ps, cv, c, sp, ib, unb, ff, msg⟩ := m
  simp only at hv hsel
  subst hv
  simp only [stepKey]
  simp only [updateAddColor, updateProjectListItems, saveProjects, keyEnter_str,
    gostr_ctrlc, gostr_esc, gostr_enter]
  rw [if_neg (by decide), if_neg (by decide), if_pos (by decide)]
  constructor
  · intro hacc
    rw [specHexAccepted_iff] at hacc
    rw [if_pos ⟨hacc.1, hacc.2.1, hacc.2.2⟩]
    refine ⟨rfl, rfl, ?_, rfl, rfl⟩
    simp only [Model.selColors, Model.selProject]
    rw [getD_set_self _ _ _ _ hsel]
  · intro hrej
    rw [if_neg ?hn]
    · exact ⟨rfl, rfl⟩
    case hn =>
      intro hcode
      rw [(specHexAccepted_iff ib).mpr ⟨hcode.1, hcode.2.1, hcode.2.2⟩] at hrej
      simp at hrej

/-- Witness for C1 at a concrete add-color state whose buffer holds
`#FF5733`. -/
theorem addColor_confirm_iff_spec_witness :
    cexAddColorModel.currentView = .AddColorView ∧
    cexAddColorModel.selectedProject < cexAddColorModel.projects.length ∧
    specHexAccepted cexAddColorModel.inputBuffer = true ∧
    ((stepKey .ok cexAddColorModel keyEnter).1.selColors =
      cexAddColorModel.selColors ++ [cexAddColorModel.inputBuffer] ∧
     (stepKey .ok cexAddColorModel keyEnter).1.currentView = .ColorListView) :=
  ⟨by decide, by decide, by decide,
   ((addColor_confirm_iff_spec cexAddColorModel (by decide) (by decide)).1 (by decide)).2.2.1,
   ((addColor_confirm_iff_spec cexAddColorModel (by decide) (by decide)).1
      (by decide)).2.2.2.1⟩

-- --- C8 ---

theorem saveErrMsg_ne_nil (env : SaveOutcome) (henv : env ≠ .ok) : saveErrMsg env ≠ [] := by
  cases env with
  | ok => exact absurd rfl henv
  | pathError e =>
    simp only [saveErrMsg]
    intro hnil
    exact absurd (List.append_eq_nil.mp hnil).1 (by decide)
  | marshalError e =>
    simp only [saveErrMsg]
    intro hnil
    exact absurd (List.append_eq_nil.mp hnil).1 (by decide)
  | writeError e =>
    simp only [saveErrMsg]
    intro hnil
    exact absurd (List.append_eq_nil.mp hnil).1 (by decide)

/-- C8: when any step of the save fails (path resolution, marshalling or the
file write), a structural mutation is kept: the new project, color or URL is
still in the in-memory list, the view transition still happens, the failure is
recorded as a non-empty transient status message, and no quit command is
produced. -/
theorem save_failure_no_rollback (env : SaveOutcome) (m : Model) (henv : env ≠ .ok) :
    saveErrMsg env ≠ [] ∧
    (m.currentView = .AddProjectView → m.inputBuffer ≠ [] →
      (stepKey env m keyEnter).1.projects = m.projects ++ [⟨m.inputBuffer, [], []⟩] ∧
      (stepKey env m keyEnter).1.currentView = .ProjectListView ∧
      (stepKey env m keyEnter).1.message = saveErrMsg env ∧
      Effect.quit ∉ (stepKey env m keyEnter).2) ∧
    (m.currentView = .AddColorView → specHexAccepted m.inputBuffer = true →
      (stepKey env m keyEnter).1.projects =
        m.projects.set m.selectedProject
          { m.selProject with Colors := m.selProject.Colors ++ [m.inputBuffer] } ∧
      (stepKey env m keyEnter).1.currentView = .ColorListView ∧
      (stepKey env m keyEnter).1.message = saveErrMsg env ∧
      Effect.quit ∉ (stepKey env m keyEnter).2) ∧
    (m.currentView = .AddUrlView → m.focusedField ≠ 0 → m.urlNameBuffer ≠ [] →
      m.inputBuffer ≠ [] →
      (stepKey env m keyEnter).1.projects =
        m.projects.set m.selectedProject
          { m.selProject with Urls := m.selProject.Urls ++ [⟨m.urlNameBuffer, m.inputBuffer⟩] } ∧
      (stepKey env m keyEnter).1.currentView = .UrlListView ∧
      (stepKey env m keyEnter).1.message = saveErrMsg env ∧
      Effect.quit ∉ (stepKey env m keyEnter).2) := by
  refine ⟨saveErrMsg_ne_nil env henv, ?_, ?_, ?_⟩
  · intro hv hb
    obtain ⟨pl, ps, cv, c, sp, ib, unb, ff, msg⟩ := m
    simp only at hv hb
    subst hv
    simp only [stepKey]
    simp only [updateAddProject, updateProjectListItems, keyEnter_str,
      gostr_ctrlc, gostr_esc, gostr_enter]
    rw [if_neg (by decide), if_neg (by decide), if_pos (by decide), if_pos hb]
    cases env
    · exact absurd rfl henv
    all_goals exact ⟨rfl, rfl, rfl, by simp [saveProjects]⟩
  · intro hv hacc
    obtain ⟨pl, ps, cv, c, sp, ib, unb, ff, msg⟩ := m
    simp only at hv hacc
    subst hv
    rw [specHexAccepted_iff] at hacc
    simp only [stepKey]
    simp only [updateAddColor, updateProjectListItems, keyEnter_str,
      gostr_ctrlc, gostr_esc, gostr_enter]
    rw [if_neg (by decide), if_neg (by decide), if_pos (by decide),
      if_pos ⟨hacc.1, hacc.2.1, hacc.2.2⟩]
    cases env
    · exact absurd rfl henv
    all_goals exact ⟨rfl, rfl, rfl, by simp [saveProjects]⟩
  · intro hv hff hn hb
    obtain ⟨pl, ps, cv, c, sp, ib, unb, ff, msg⟩ := m
    simp only at hv hff hn hb
    subst hv
    simp only [stepKey]
    simp only [updateAddUrl, updateProjectListItems, keyEnter_str,
      gostr_ctrlc, gostr_esc, gostr_enter]
    rw [if_neg (by decide), if_neg (by decide), if_pos (by decide), if_neg hff, if_pos ⟨hn, hb⟩]
    cases env
    · exact absurd rfl henv
    all_goals exact ⟨rfl, rfl, rfl, by simp [saveProjects]⟩

/-- Witness for C8: a failing file write after adding a project at a concrete
state keeps the new project, moves to the project list, and reports the
error. -/
theorem save_failure_no_rollback_witness :
    cexAddProjectModel.currentView = .AddProjectView ∧
    cexAddProjectModel.inputBuffer ≠ [] ∧
    ((stepKey (.writeError (gostr "disk full")) cexAddProjectModel keyEnter).1.projects =
       cexAddProjectModel.projects ++ [⟨cexAddProjectModel.inputBuffer, [], []⟩] ∧
     (stepKey (.writeError (gostr "disk full")) cexAddProjectModel keyEnter).1.currentView =
       .ProjectListView ∧
     (stepKey (.writeError (gostr "disk full")) cexAddProjectModel keyEnter).1.message =
       saveErrMsg (.writeError (gostr "disk full")) ∧
     Effect.quit ∉ (stepKey (.writeError (gostr "disk full")) cexAddProjectModel keyEnter).2) :=
  ⟨by decide, by decide,
   (save_failure_no_rollback (.writeError (gostr "disk full")) cexAddProjectModel
      (by decide)).2.1 (by decide) (by decide)⟩

-- --- C4 ---

/-- C4 amended: in the ProjectList view with the widget items mirroring the
projects and the widget cursor on an existing item, confirm transitions to
ProjectMenu and resets the cursor to 0, but sets `selectedProject` to the index
of the *first* project whose name equals the chosen item's name — the least
matching index — which equals the chosen index exactly when project names are
pairwise distinct (the handler looks the selected item up by name). -/
theorem select_project_first_name_match (env : SaveOutcome) (m : Model)
    (hv : m.currentView = .ProjectListView)
    (hsync : m.projectList.items = m.projects.map Project.toItem)
    (hidx : m.projectList.index < m.projects.length) :
    (stepKey env m keyEnter).1.currentView = .ProjectMenuView ∧
    (stepKey env m keyEnter).1.cursor = 0 ∧
    (stepKey env m keyEnter).1.selectedProject < m.projects.length ∧
    (m.projects.getD (stepKey env m keyEnter).1.selectedProject ⟨[], [], []⟩).Name =
      (m.projects.getD m.projectList.index ⟨[], [], []⟩).Name ∧
    (∀ j, j < (stepKey env m keyEnter).1.selectedProject →
      (m.projects.getD j ⟨[], [], []⟩).Name ≠
        (m.projects.getD m.projectList.index ⟨[], [], []⟩).Name) ∧
    (m.projects.Pairwise (fun p q => p.Name ≠ q.Name) →
      (stepKey env m keyEnter).1.selectedProject = m.projectList.index) := by
  obtain ⟨⟨items, idx⟩, ps, cv, c, sp, ib, unb, ff, msg⟩ := m
  simp only at hv hsync hidx
  subst hv; subst hsync
  have hidx' : idx < (ps.map Project.toItem).length := by simpa using hidx
  have hsel : PList.selectedItem ⟨ps.map Project.toItem, idx⟩ =
      some (Project.toItem ps[idx]) := by
    simp [PList.selectedItem, List.get?_eq_getElem?, List.getElem?_eq_getElem hidx',
      List.getElem?_eq_getElem hidx]
  have hmem : ps[idx] ∈ ps := List.getElem_mem _
  have hex : ∃ x, x ∈ ps ∧ (fun p => decide (p.Name = (Project.toItem ps[idx]).name)) x = true :=
    ⟨ps[idx], hmem, by simp [Project.toItem]⟩
  have hfind := List.findIdx?_eq_some_of_exists hex
  simp only [stepKey]
  simp only [updateProjectList, keyEnter_str, gostr_ctrlc, gostr_q, gostr_enter, gostr_n]
  rw [if_neg (by decide), if_pos (by decide)]
  simp only [hsel]
  simp only [hfind]
  set fi := ps.findIdx (fun p => decide (p.Name = (Project.toItem ps[idx]).name)) with hfi
  have hflt : fi < ps.length := List.findIdx_lt_length_of_exists (by
    exact ⟨ps[idx], hmem, by simp [Project.toItem]⟩)
  have hfname : ps[fi].Name = ps[idx].Name := by
    have := List.findIdx_getElem (p := fun (p : Project) => decide (p.Name = (Project.toItem ps[idx]).name))
      (w := hflt)
    simpa [Project.toItem] using this
  refine ⟨by simp, by simp, hflt, ?_, ?_, ?_⟩
  · simp only [List.getD_eq_getElem?_getD, List.getElem?_eq_getElem hflt,
      List.getElem?_eq_getElem hidx, Option.getD_some]
    exact hfname
  · intro j hj
    have hjlt : j < ps.length := lt_trans hj hflt
    simp only [List.getD_eq_getElem?_getD, List.getElem?_eq_getElem hjlt,
      List.getElem?_eq_getElem hidx, Option.getD_some]
    have := List.not_of_lt_findIdx (p := fun (p : Project) => decide (p.Name = (Project.toItem ps[idx]).name))
      (i := j) hj
    simpa [Project.toItem] using this
  · intro hpw
    have hle : fi ≤ idx := by
      by_contra hgt
      push_neg at hgt
      have := List.not_of_lt_findIdx (p := fun (p : Project) => decide (p.Name = (Project.toItem ps[idx]).name))
        (i := idx) hgt
      simp [Project.toItem] at this
    rcases Nat.lt_or_ge fi idx with hlt | hge
    · exfalso
      have hne := (List.pairwise_iff_getElem.mp hpw) fi idx hflt hidx hlt
      exact hne hfname
    · omega

/-- Witness for C4's amended theorem at the concrete duplicate-name state. -/
theorem select_project_first_name_match_witness :
    cexC4Model.currentView = .ProjectListView ∧
    cexC4Model.projectList.items = cexC4Model.projects.map Project.toItem ∧
    cexC4Model.projectList.index < cexC4Model.projects.length ∧
    ((stepKey .ok cexC4Model keyEnter).1.currentView = .ProjectMenuView ∧
     (stepKey .ok cexC4Model keyEnter).1.cursor = 0) :=
  ⟨by decide, by decide, by decide,
   (select_project_first_name_match .ok cexC4Model (by decide) (by decide) (by decide)).1,
   (select_project_first_name_match .ok cexC4Model (by decide) (by decide) (by decide)).2.1⟩

-- --- C6 ---

theorem updateAddColor_buflen (env : SaveOutcome) (m : Model) (k : KeyMsg)
    (hb : m.inputBuffer.length ≤ 7)
    (hk : k.type = .runes → ∃ r, k.runes = [r] ∧ r < 0x80) :
    (updateAddColor env m k).1.inputBuffer.length ≤ 7 := by
  obtain ⟨pl, ps, cv, c, sp, ib, unb, ff, msg⟩ := m
  simp only at hb
  simp only [updateAddColor, updateProjectListItems]
  cases env
  all_goals simp only [saveProjects]
  all_goals repeat' split
  all_goals dsimp only
  all_goals try simpa using hb
  all_goals try (simp only [List.length_nil]; omega)
  all_goals try (simp only [List.length_dropLast]; omega)
  all_goals rename_i hc
  all_goals obtain ⟨hty, hlen⟩ := hc
  all_goals obtain ⟨r, hrs, hr⟩ := hk hty
  all_goals simp only [hrs, runesToStr, utf8EncodeCp, if_pos hr, List.map_cons, List.map_nil,
    List.flatten, List.append_nil, List.length_append, List.length_cons, List.length_nil]
  all_goals omega

/-- C6 amended: the AddColor handler rejects character input once the buffer
has reached 7 *bytes*; an accepted event appends all the bytes of its runes,
so a multi-byte rune (or a multi-rune paste) can push the buffer past 7 (the
counterexample reaches 9).  When every character-input event carries a single
ASCII rune, the byte length never exceeds 7 over any event sequence handled in
AddColor, and a single-ASCII-rune event at a buffer of length ≥ 7 leaves the
buffer unchanged. -/
theorem addColor_buffer_bound_ascii (env : SaveOutcome) (m : Model) (ks : List KeyMsg)
    (hb : m.inputBuffer.length ≤ 7)
    (hks : ∀ k ∈ ks, k.type = .runes → ∃ r, k.runes = [r] ∧ r < 0x80) :
    (ks.foldl (fun acc k => (updateAddColor env acc k).1) m).inputBuffer.length ≤ 7 ∧
    (∀ r : Nat, r < 0x80 → 7 ≤ m.inputBuffer.length →
      (updateAddColor env m (keyRunes [r])).1.inputBuffer = m.inputBuffer) := by
  constructor
  · induction ks generalizing m with
    | nil => exact hb
    | cons k ks ih =>
      simp only [List.foldl_cons]
      exact ih _ (updateAddColor_buflen env m k hb (hks k (by simp)))
        (fun k' hk' => hks k' (by simp [hk']))
  · intro r hr hlen
    obtain ⟨pl, ps, cv, c, sp, ib, unb, ff, msg⟩ := m
    simp only at hlen
    have hstr : (keyRunes [r]).str = [r] := by
      simp [keyRunes_str, runesToStr, utf8EncodeCp, if_pos hr]
    simp only [updateAddColor, updateProjectListItems, hstr, gostr_ctrlc, gostr_esc,
      gostr_enter, gostr_backspace]
    rw [if_neg (by simp), if_neg (by simp), if_neg (by simp), if_neg (by simp)]
    rw [if_neg (by simp; omega)]

/-- Witness for C6's amended theorem: one ASCII character at the 7-byte buffer
`#FF5733` is rejected and the bound holds. -/
theorem addColor_buffer_bound_ascii_witness :
    cexAddColorModel.inputBuffer.length ≤ 7 ∧
    ([keyRunes [97]].foldl (fun acc k => (updateAddColor .ok acc k).1)
        cexAddColorModel).inputBuffer.length ≤ 7 ∧
    (updateAddColor .ok cexAddColorModel (keyRunes [97])).1.inputBuffer =
      cexAddColorModel.inputBuffer := by
  have hks : ∀ k ∈ [keyRunes [97]], k.type = KeyType.runes →
      ∃ r, k.runes = [r] ∧ r < 0x80 := by
    intro k hk
    simp only [List.mem_singleton] at hk
    subst hk
    exact fun _ => ⟨97, rfl, by omega⟩
  refine ⟨by decide, ?_, ?_⟩
  · exact (addColor_buffer_bound_ascii .ok cexAddColorModel [keyRunes [97]]
      (by decide) hks).1
  · exact (addColor_buffer_bound_ascii .ok cexAddColorModel [keyRunes [97]]
      (by decide) hks).2 97 (by omega) (by decide)

-- --- C9 ---

/-- C9 amended: every render function is deterministic in the state and leaves
every field unchanged *except* the status message: the ProjectList, ColorList
and UrlList renderers clear the message after including it in the output (a
no-op when it is already empty), while ProjectMenu and the three Add* renderers
touch nothing; hence rendering the same state twice yields the same text for
the latter four always, and for the list views whenever the status message is
empty. -/
theorem render_state_effect_amended (m : Model) :
    (viewProjectMenu m).2 = m ∧ (viewAddProject m).2 = m ∧ (viewAddColor m).2 = m ∧
    (viewAddUrl m).2 = m ∧
    (viewProjectList m).2 = { m with message := [] } ∧
    (viewColorList m).2 = { m with message := [] } ∧
    (viewUrlList m).2 = { m with message := [] } ∧
    (viewProjectMenu ((viewProjectMenu m).2)).1 = (viewProjectMenu m).1 ∧
    (viewAddProject ((viewAddProject m).2)).1 = (viewAddProject m).1 ∧
    (viewAddColor ((viewAddColor m).2)).1 = (viewAddColor m).1 ∧
    (viewAddUrl ((viewAddUrl m).2)).1 = (viewAddUrl m).1 ∧
    (m.message = [] →
      (viewProjectList ((viewProjectList m).2)).1 = (viewProjectList m).1 ∧
      (viewColorList ((viewColorList m).2)).1 = (viewColorList m).1 ∧
      (viewUrlList ((viewUrlList m).2)).1 = (viewUrlList m).1) := by
  obtain ⟨pl, ps, cv, c, sp, ib, unb, ff, msg⟩ := m
  refine ⟨rfl, rfl, rfl, rfl, ?_, ?_, ?_, rfl, rfl, rfl, rfl, ?_⟩
  · simp only [viewProjectList]
    split <;> simp_all
  · simp only [viewColorList]
    split <;> simp_all
  · simp only [viewUrlList]
    split <;> simp_all
  · intro hmsg
    simp only at hmsg
    subst hmsg
    refine ⟨?_, ?_, ?_⟩
    · simp [viewProjectList]
    · simp [viewColorList]
    · simp [viewUrlList]

/-- Witness for C9's amended theorem at concrete states. -/
theorem render_state_effect_amended_witness :
    (viewProjectMenu cexC9Model).2 = cexC9Model ∧
    (viewColorList cexC9Model).2 = { cexC9Model with message := [] } ∧
    cexAddProjectModel.message = [] ∧
    (viewColorList ((viewColorList cexAddProjectModel).2)).1 =
      (viewColorList cexAddProjectModel).1 :=
  ⟨(render_state_effect_amended cexC9Model).1,
   (render_state_effect_amended cexC9Model).2.2.2.2.2.1,
   by decide,
   ((render_state_effect_amended cexAddProjectModel).2.2.2.2.2.2.2.2.2.2.2
      (by decide)).2.1⟩

-- --- C2: save/load round trip ---

theorem utf8Valid_cons (b0 : Nat) (bs : List Nat) :
    utf8Valid (b0 :: bs) =
      (if b0 < 0x80 then utf8Valid bs
       else if 0xC2 ≤ b0 && b0 ≤ 0xDF then
         match bs with
         | b1 :: rest => isCont b1 && utf8Valid rest
         | [] => false
       else if 0xE0 ≤ b0 && b0 ≤ 0xEF then
         match bs with
         | b1 :: b2 :: rest => accept1 b0 b1 && isCont b2 && utf8Valid rest
         | _ => false
       else if 0xF0 ≤ b0 && b0 ≤ 0xF4 then
         match bs with
         | b1 :: b2 :: b3 :: rest => accept1 b0 b1 && isCont b2 && isCont b3 && utf8Valid rest
         | _ => false
       else false) := by
  rcases bs with _ | ⟨b1, _ | ⟨b2, _ | ⟨b3, rest⟩⟩⟩ <;> rfl

theorem goSanitizeF_succ (n : Nat) (b0 : Nat) (bs : List Nat) :
    goSanitizeF (n + 1) (b0 :: bs) =
      (if b0 < 0x80 then b0 :: goSanitizeF n bs
       else if 0xC2 ≤ b0 && b0 ≤ 0xDF then
         match bs with
         | b1 :: rest =>
           if isCont b1 then b0 :: b1 :: goSanitizeF n rest
           else repl ++ goSanitizeF n bs
         | [] => repl
       else if 0xE0 ≤ b0 && b0 ≤ 0xEF then
         match bs with
         | b1 :: b2 :: rest =>
           if accept1 b0 b1 && isCont b2 then b0 :: b1 :: b2 :: goSanitizeF n rest
           else repl ++ goSanitizeF n bs
         | _ => repl ++ goSanitizeF n bs
       else if 0xF0 ≤ b0 && b0 ≤ 0xF4 then
         match bs with
         | b1 :: b2 :: b3 :: rest =>
           if accept1 b0 b1 && isCont b2 && isCont b3 then
             b0 :: b1 :: b2 :: b3 :: goSanitizeF n rest
           else repl ++ goSanitizeF n bs
         | _ => repl ++ goSanitizeF n bs
       else repl ++ goSanitizeF n bs) := by
  rcases bs with _ | ⟨b1, _ | ⟨b2, _ | ⟨b3, rest⟩⟩⟩ <;> rfl

theorem goSanitizeF_valid (fuel : Nat) : ∀ (l : List Nat), l.length ≤ fuel →
    utf8Valid l = true → goSanitizeF fuel l = l := by
  induction fuel with
  | zero =>
    intro l hl _
    cases l with
    | nil => rfl
    | cons b bs => simp at hl
  | succ n ih =>
    intro l hl hv
    cases l with
    | nil => rfl
    | cons b0 bs =>
      simp only [List.length_cons] at hl
      rw [utf8Valid_cons] at hv
      rw [goSanitizeF_succ]
      by_cases h1 : b0 < 0x80
      · rw [if_pos h1] at hv ⊢
        rw [ih bs (by omega) hv]
      · rw [if_neg h1] at hv ⊢
        by_cases h2 : (0xC2 ≤ b0 && b0 ≤ 0xDF) = true
        · rw [if_pos h2] at hv ⊢
          cases bs with
          | nil => simp at hv
          | cons b1 rest =>
            dsimp only at hv ⊢
            simp only [List.length_cons] at hl
            rw [Bool.and_eq_true] at hv
            rw [if_pos hv.1]
            rw [ih rest (by omega) hv.2]
        · rw [if_neg h2] at hv ⊢
          by_cases h3 : (0xE0 ≤ b0 && b0 ≤ 0xEF) = true
          · rw [if_pos h3] at hv ⊢
            cases bs with
            | nil => simp at hv
            | cons b1 rest' =>
              cases rest' with
              | nil => simp at hv
              | cons b2 rest =>
                dsimp only at hv ⊢
                simp only [List.length_cons] at hl
                rw [Bool.and_eq_true] at hv
                rw [if_pos hv.1]
                rw [ih rest (by omega) hv.2]
          · rw [if_neg h3] at hv ⊢
            by_cases h4 : (0xF0 ≤ b0 && b0 ≤ 0xF4) = true
            · rw [if_pos h4] at hv ⊢
              cases bs with
              | nil => simp at hv
              | cons b1 rest'' =>
                cases rest'' with
                | nil => simp at hv
                | cons b2 rest' =>
                  cases rest' with
                  | nil => simp at hv
                  | cons b3 rest =>
                    dsimp only at hv ⊢
                    simp only [List.length_cons] at hl
                    rw [Bool.and_eq_true] at hv
                    rw [if_pos hv.1]
                    rw [ih rest (by omega) hv.2]
            · rw [if_neg h4] at hv ⊢
              exact absurd hv (by simp)

theorem goSanitize_valid (l : List Nat) (hv : utf8Valid l = true) : goSanitize l = l :=
  goSanitizeF_valid l.length l (le_refl _) hv


@[simp] theorem gostr_name : gostr "name" = [110, 97, 109, 101] := by decide

@[simp] theorem gostr_url : gostr "url" = [117, 114, 108] := by decide

@[simp] theorem gostr_colors : gostr "colors" = [99, 111, 108, 111, 114, 115] := by decide

@[simp] theorem gostr_urls : gostr "urls" = [117, 114, 108, 115] := by decide

theorem mapME_strings (cs : List GoStr) (hv : cs.all utf8Valid = true) :
    mapME unmarshalString (cs.map (fun c => Json.str (goSanitize c))) = .ok cs := by
  induction cs with
  | nil => rfl
  | cons c cs ih =>
    simp only [List.all_cons, Bool.and_eq_true] at hv
    simp only [List.map_cons, mapME]
    rw [goSanitize_valid c hv.1]
    simp only [unmarshalString]
    rw [ih hv.2]

theorem unmarshalNamedURL_marshal (u : NamedURL) (h1 : utf8Valid u.Name = true)
    (h2 : utf8Valid u.URL = true) :
    unmarshalNamedURL (marshalNamedURL u) = .ok u := by
  obtain ⟨n, url⟩ := u
  simp only at h1 h2
  simp only [marshalNamedURL]
  rw [goSanitize_valid n h1, goSanitize_valid url h2]
  simp [unmarshalNamedURL, getStrField, jlookup, List.find?, unmarshalString]

theorem mapME_urls (us : List NamedURL)
    (hv : us.all (fun u => utf8Valid u.Name && utf8Valid u.URL) = true) :
    mapME unmarshalNamedURL (us.map marshalNamedURL) = .ok us := by
  induction us with
  | nil => rfl
  | cons u us ih =>
    simp only [List.all_cons, Bool.and_eq_true] at hv
    simp only [List.map_cons, mapME]
    rw [unmarshalNamedURL_marshal u hv.1.1 hv.1.2]
    rw [ih hv.2]

theorem unmarshalProject_marshal (p : Project) (hv : projectStrsValid p = true) :
    unmarshalProject (marshalProject p) = .ok p := by
  obtain ⟨n, cs, us⟩ := p
  simp only [projectStrsValid, Bool.and_eq_true] at hv
  obtain ⟨⟨h1, h2⟩, h3⟩ := hv
  simp only [marshalProject]
  rw [goSanitize_valid n h1]
  simp [unmarshalProject, getStrField, jlookup, List.find?, unmarshalString]
  rw [mapME_strings cs h2, mapME_urls us h3]

theorem mapME_projects (ps : List Project) (hv : projectsStrsValid ps = true) :
    mapME unmarshalProject (ps.map marshalProject) = .ok ps := by
  induction ps with
  | nil => rfl
  | cons p ps ih =>
    simp only [projectsStrsValid, List.all_cons, Bool.and_eq_true] at hv
    simp only [List.map_cons, mapME]
    rw [unmarshalProject_marshal p hv.1]
    rw [ih (by simp only [projectsStrsValid]; exact hv.2)]

/-- C2 amended: saving and reloading is the identity on every project list all
of whose strings (project names, colors, URL names and URLs) are valid UTF-8;
a string containing invalid UTF-8 bytes is coerced during the save (each
invalid byte becomes U+FFFD), so such lists do not round-trip (see the
counterexample). -/
theorem save_load_roundtrip_valid_utf8 (ps : List Project)
    (hv : projectsStrsValid ps = true) :
    loadProjects (some (marshalProjects ps)) = .ok ps := by
  simp only [loadProjects, marshalProjects, unmarshalProjects]
  exact mapME_projects ps hv

/-- Witness for C2's amended theorem at a concrete project list. -/
theorem save_load_roundtrip_utf8_witness :
    projectsStrsValid psOne = true ∧
    loadProjects (some (marshalProjects psOne)) = Except.ok psOne :=
  ⟨by decide, save_load_roundtrip_valid_utf8 psOne (by decide)⟩

end Diamonds
